import Mathlib

/-!
Verification of the simulation core of the bubble-shooter game
(`src/src/main.js`), as a shallow embedding in Lean 4.

Conventions of the embedding:
* A settled bubble is its grid bookkeeping data `{row, col, color}`
  (the JS object additionally carries the derived world position and the
  Phaser sprite, which the grid logic never branches on).
* The grid registry `this.gridBubbles` (a JS array) is a `List Bubble`;
  `Array.prototype.find` is `List.find?`, `indexOf`/`splice` removal is
  `List.erase`, `push` is append.
* JS numbers used as grid coordinates are `Int` (JS `%` is truncated
  remainder, `Int.tmod`); scores and colors are `Nat`; continuous world
  coordinates are `ℚ`.
* `this.bubblesPerRow` is the parameter `bpr` of every grid function.
-/

namespace BubbleShooter

/-! ### Constants (main.js lines 575–608) -/

/-- `const BUBBLE_RADIUS = 20` (line 576). -/
def BUBBLE_RADIUS : ℚ := 20

/-- `const BUBBLE_DIAMETER = BUBBLE_RADIUS * 2` (line 594). -/
def BUBBLE_DIAMETER : ℚ := BUBBLE_RADIUS * 2

/-- `const BUBBLE_SPEED = 800` (line 575). -/
def BUBBLE_SPEED : ℚ := 800

/-- `const POINTS_PER_POP = 10` (line 585). -/
def POINTS_PER_POP : Nat := 10

/-- `const POINTS_PER_FALL = 20` (line 586). -/
def POINTS_PER_FALL : Nat := 20

/-- `const INITIAL_DESCENT_INTERVAL = 20000` (line 598). -/
def INITIAL_DESCENT_INTERVAL : Nat := 20000

/-- `const MIN_DESCENT_INTERVAL = 6000` (line 599). -/
def MIN_DESCENT_INTERVAL : Nat := 6000

/-- `const DESCENT_SPEED_THRESHOLDS = [...]` (lines 601–608),
each entry as `(score, interval)`. -/
def DESCENT_SPEED_THRESHOLDS : List (Nat × Nat) :=
  [(0, 20000), (500, 15000), (1000, 10000), (2000, 8000), (3500, 7000), (5000, 6000)]

/-! ### Grid data model -/

/-- The grid bookkeeping record of one settled bubble
(the `bubbleData` objects pushed onto `this.gridBubbles`). -/
structure Bubble where
  row : Int
  col : Int
  color : Nat
deriving DecidableEq, Repr

/-- The grid registry `this.gridBubbles`. -/
abbrev Grid := List Bubble

/-- The `(row, col)` cell of a bubble — the flood fills key cells by
the string `row + "," + col`, which identifies exactly this pair. -/
def bubbleKey (b : Bubble) : Int × Int := (b.row, b.col)

/-- The grid occupancy invariant: no two settled bubbles share a cell. -/
def cellsNodup (g : Grid) : Prop := (g.map bubbleKey).Nodup

instance (g : Grid) : Decidable (cellsNodup g) := by
  unfold cellsNodup; infer_instance

/-- `const isOddRow = row % 2 === 1` — JS `%` on a (possibly negative)
number is the truncated remainder `Int.tmod`. -/
def isOddRow (row : Int) : Bool := row.tmod 2 == 1

/-- `isValidGridCell(row, col)` (main.js lines 1621–1627). -/
def isValidGridCell (bpr : Int) (row col : Int) : Bool :=
  if row < 0 then false
  else
    let maxCols := if isOddRow row then bpr - 1 else bpr
    decide (0 ≤ col) && decide (col < maxCols)

/-- `getBubbleAtCell(row, col)` (lines 1629–1632): `Array.find` returns
the first element matching the predicate. -/
def getBubbleAtCell (g : Grid) (row col : Int) : Option Bubble :=
  g.find? (fun b => b.row == row && b.col == col)

/-- `getNeighbors(row, col)` (lines 1690–1710): the parity-dependent
hex offsets, shifted to `(row, col)` and filtered by validity, in
source order. -/
def getNeighbors (bpr : Int) (row col : Int) : List (Int × Int) :=
  let offsets : List (Int × Int) :=
    if isOddRow row then [(-1, 0), (-1, 1), (0, -1), (0, 1), (1, 0), (1, 1)]
    else [(-1, -1), (-1, 0), (0, -1), (0, 1), (1, -1), (1, 0)]
  (offsets.map (fun o => (row + o.1, col + o.2))).filter
    (fun p => isValidGridCell bpr p.1 p.2)

/-! ### Descent interval policy (lines 2265–2274) -/

/-- `getDescentIntervalForScore()` (lines 2265–2274): start from
`INITIAL_DESCENT_INTERVAL`, walk the thresholds in order overwriting the
interval whenever `score >= threshold.score`, then clamp from below by
`MIN_DESCENT_INTERVAL` (`Math.max`). -/
def getDescentIntervalForScore (score : Nat) : Nat :=
  let interval := DESCENT_SPEED_THRESHOLDS.foldl
    (fun interval t => if t.1 ≤ score then t.2 else interval)
    INITIAL_DESCENT_INTERVAL
  max interval MIN_DESCENT_INTERVAL

/-! ### Flood fills (lines 1720–1744 and 1938–1967)

Both searches share the same loop shape: dequeue a bubble, enumerate its
`getNeighbors`, skip cells whose key is already in the visited set,
otherwise look the cell up in the registry and, when the occupant passes
the filter (`color === startBubble.color` for the match search, mere
occupancy for the ceiling search), record its key as visited and push the
bubble. `visitNeighbors` is the inner `for` loop, `bfsAux` the outer
`while`, with explicit fuel (the JS loops terminate because the visited
set can only grow; the fuel chosen at the call sites is shown sufficient
in `bfsAux_spec`). -/

/-- The inner `for (const neighbor of neighbors)` loop body shared by
`findConnectedBubbles` and `findFloatingBubbles`: returns the grown
visited set and the list of newly discovered bubbles in discovery
order (the JS pushes each onto both the queue and the result). -/
def visitNeighbors (g : Grid) (keep : Bubble → Bool) :
    List (Int × Int) → List (Int × Int) → List Bubble → List (Int × Int) × List Bubble
  | [], visited, acc => (visited, acc)
  | n :: rest, visited, acc =>
    if n ∈ visited then visitNeighbors g keep rest visited acc
    else
      match getBubbleAtCell g n.1 n.2 with
      | some b =>
        if keep b then visitNeighbors g keep rest (n :: visited) (acc ++ [b])
        else visitNeighbors g keep rest visited acc
      | none => visitNeighbors g keep rest visited acc

/-- The outer `while (queue.length > 0)` loop shared by both flood
fills; `queue.shift()` dequeues from the front. -/
def bfsAux (g : Grid) (bpr : Int) (keep : Bubble → Bool) :
    Nat → List Bubble → List (Int × Int) → List Bubble →
      List (Int × Int) × List Bubble
  | 0, _, visited, conn => (visited, conn)
  | _ + 1, [], visited, conn => (visited, conn)
  | fuel + 1, cur :: queue, visited, conn =>
    let r := visitNeighbors g keep (getNeighbors bpr cur.row cur.col) visited []
    bfsAux g bpr keep fuel (queue ++ r.2) r.1 (conn ++ r.2)

/-- `findConnectedBubbles(startBubble)` (lines 1720–1744): flood fill
from the newly settled bubble through same-colored occupied neighbors. -/
def findConnectedBubbles (bpr : Int) (g : Grid) (startBubble : Bubble) : List Bubble :=
  (bfsAux g bpr (fun b => b.color == startBubble.color) (g.length + 1)
    [startBubble] [bubbleKey startBubble] [startBubble]).2

/-- `findFloatingBubbles()` (lines 1938–1967): flood fill seeded from
every row-0 bubble through occupied neighbors; returns the bubbles whose
key was never reached. -/
def findFloatingBubbles (bpr : Int) (g : Grid) : List Bubble :=
  let seeds := g.filter (fun b => b.row == 0)
  let visited := (bfsAux g bpr (fun _ => true) (g.length + seeds.length)
    seeds (seeds.map bubbleKey) seeds).1
  g.filter (fun b => decide (bubbleKey b ∉ visited))

/-! ### Grid mutation (lines 1634–1658, 1776–1795, 1928–1936, 1969–1993) -/

/-- `removeBubbleFromGrid(bubble)` (lines 1928–1936): `indexOf` plus
`splice(index, 1)` removes the first occurrence. -/
def removeBubbleFromGrid (g : Grid) (b : Bubble) : Grid := g.erase b

/-- The grid effect of `popBubbles(bubbles)` (lines 1776–1795): each
bubble of the list is removed from the registry (each removal is wrapped
in a staggered `delayedCall`, see `popDelays`; this is the state once
all of them have fired). -/
def popBubbles (g : Grid) (bubbles : List Bubble) : Grid :=
  bubbles.foldl (fun acc b => removeBubbleFromGrid acc b) g

/-- The pop-removal schedule of `popBubbles` (line 1790): the `i`-th
bubble of the component is removed by `this.time.delayedCall(i * 30, ...)`. -/
def popDelays (count : Nat) : List Nat := (List.range count).map (fun i => i * 30)

/-- The delay of the deferred float check scheduled by
`checkAndPopMatches` (line 1760): `this.time.delayedCall(100, ...)`. -/
def FLOAT_CHECK_DELAY : Nat := 100

/-- `checkAndPopMatches(newBubble)` (lines 1746–1774), restricted to its
effect on the registry and the score: the pop branch fires only for a
connected component of size `>= 3`; it removes the whole component and
credits `connected.length * POINTS_PER_POP`. (The deferred float check
it schedules is `floatCheck` below.) -/
def checkAndPopMatches (bpr : Int) (g : Grid) (newBubble : Bubble) : Grid × Nat :=
  let connected := findConnectedBubbles bpr g newBubble
  if 3 ≤ connected.length then
    (popBubbles g connected, connected.length * POINTS_PER_POP)
  else (g, 0)

/-- `dropFloatingBubbles(bubbles)` (lines 1969–1993): every listed
bubble is spliced out of the registry and pushed onto
`this.fallingBubbles`; the second component is the list handed to the
falling-bubble collection (its random velocities are presentation
only). -/
def dropFloatingBubbles (g : Grid) (bubbles : List Bubble) : Grid × List Bubble :=
  (bubbles.foldl (fun acc b => acc.erase b) g, bubbles)

/-- The body of the deferred float check scheduled by
`checkAndPopMatches` (lines 1760–1770): find the floating bubbles, and
when there are any, drop them and credit
`floating.length * POINTS_PER_FALL`. Returns (new grid, bubbles handed
to the falling collection, score credit). -/
def floatCheck (bpr : Int) (g : Grid) : Grid × List Bubble × Nat :=
  let floating := findFloatingBubbles bpr g
  if 0 < floating.length then
    ((dropFloatingBubbles g floating).1, floating, floating.length * POINTS_PER_FALL)
  else (g, [], 0)

/-- `addBubbleToGrid(row, col, color)` (lines 1634–1658): silently
returns `null` leaving the registry unchanged when the cell is invalid
or occupied, otherwise pushes a new bubble record and returns it. (The
sprite and the derived world position are presentation only.) -/
def addBubbleToGrid (bpr : Int) (g : Grid) (row col : Int) (color : Nat) :
    Option Bubble × Grid :=
  if !(isValidGridCell bpr row col) then (none, g)
  else if (getBubbleAtCell g row col).isSome then (none, g)
  else
    let bubbleData : Bubble := ⟨row, col, color⟩
    (some bubbleData, g ++ [bubbleData])

/-- A mutation of the grid registry: an `addBubbleToGrid` call or a
`removeBubbleFromGrid` call. -/
inductive GridOp where
  | insert (row col : Int) (color : Nat)
  | remove (b : Bubble)

def applyGridOp (bpr : Int) (g : Grid) : GridOp → Grid
  | .insert row col color => (addBubbleToGrid bpr g row col color).2
  | .remove b => removeBubbleFromGrid g b

def applyGridOps (bpr : Int) (g : Grid) (ops : List GridOp) : Grid :=
  ops.foldl (applyGridOp bpr) g

/-! ### Descent (lines 2417–2485) -/

/-- `addNewTopRow()` (lines 2452–2485): one fresh bubble per column of a
full row (`bubblesInRow = this.bubblesPerRow`; "Row 0 is always full"),
colors drawn by `getRandomAvailableColor()`, abstracted as the roll
function `newColors`. -/
def addNewTopRow (bpr : Int) (newColors : Nat → Nat) : Grid :=
  (List.range bpr.toNat).map (fun (col : Nat) => ⟨0, (col : Int), newColors col⟩)

/-- `descendGrid()` (lines 2417–2450): unless the session is already
over, every settled bubble moves to `row + 1` (same column, same color;
its world position is recomputed from the new cell, and the sprite
tween is presentation only), then `addNewTopRow()` pushes the fresh
row 0. -/
def descendGrid (bpr : Int) (isGameOver : Bool) (g : Grid)
    (newColors : Nat → Nat) : Grid :=
  if isGameOver then g
  else (g.map fun b => { b with row := b.row + 1 }) ++ addNewTopRow bpr newColors

/-! ### Trajectory stepping (lines 1089–1140 and 2086–2144) -/

/-- The playfield rectangle `this.gameArea`, restricted to the three
boundaries the stepping inspects. -/
structure GameArea where
  left : ℚ
  right : ℚ
  top : ℚ

/-- `checkGridCollision(x, y)` (lines 1128–1140): whether some settled
bubble's center is strictly within `collisionDist = BUBBLE_DIAMETER *
0.9` of the point. The JS compares the Euclidean distance, embedded as
the equivalent comparison of squares; both call sites use only the
truthiness of the result, and only the stored world positions `(x, y)`
of the grid bubbles take part, so the grid enters as a list of
centers. -/
def checkGridCollision (centers : List (ℚ × ℚ)) (x y : ℚ) : Bool :=
  centers.any (fun c =>
    decide ((x - c.1) ^ 2 + (y - c.2) ^ 2 < (BUBBLE_DIAMETER * (9 / 10)) ^ 2))

/-- The preview stepping state of `drawTrajectory` (lines 2099–2107):
position, direction vector, wall-bounce count. -/
structure TrajState where
  x : ℚ
  y : ℚ
  dx : ℚ
  dy : ℚ
  bounces : Nat
deriving DecidableEq, Repr

/-- The way one preview iteration ends. -/
inductive TrajOutcome where
  | ceiling (x y : ℚ)
  | hit (x y : ℚ)
  | flying (s : TrajState)
deriving DecidableEq, Repr

/-- One iteration of the `for` loop of `drawTrajectory`
(lines 2109–2144): move by `stepSize = 10` along the direction, clamp
and reflect at the side walls (incrementing the bounce counter),
terminate clamped at the ceiling, terminate on grid contact. -/
def previewStep (area : GameArea) (centers : List (ℚ × ℚ)) (s : TrajState) :
    TrajOutcome :=
  let x0 := s.x + s.dx * 10
  let y0 := s.y + s.dy * 10
  let w : ℚ × ℚ × Nat :=
    if x0 - BUBBLE_RADIUS ≤ area.left then
      (area.left + BUBBLE_RADIUS, |s.dx|, s.bounces + 1)
    else if x0 + BUBBLE_RADIUS ≥ area.right then
      (area.right - BUBBLE_RADIUS, -|s.dx|, s.bounces + 1)
    else (x0, s.dx, s.bounces)
  if y0 - BUBBLE_RADIUS ≤ area.top then .ceiling w.1 (area.top + BUBBLE_RADIUS)
  else if checkGridCollision centers w.1 y0 then .hit w.1 y0
  else .flying ⟨w.1, y0, w.2.1, s.dy, w.2.2⟩

/-- The stepping loop of `drawTrajectory` (line 2109):
`for (step = 0; step < maxSteps && bounces <= maxBounces && !hitBubble)`;
the fuel is the remaining step budget, starting at `maxSteps`. A
`flying` result is the loop giving up (step budget exhausted or bounce
cap exceeded) without having reached the ceiling or a bubble. -/
def drawTrajectoryRun (area : GameArea) (centers : List (ℚ × ℚ)) :
    Nat → TrajState → TrajOutcome
  | 0, s => .flying s
  | fuel + 1, s =>
    if 3 < s.bounces then .flying s
    else
      match previewStep area centers s with
      | .flying s' => drawTrajectoryRun area centers fuel s'
      | out => out

/-- `drawTrajectory(angle)` (lines 2086–2144) with the launch direction
`(dx, dy) = (cos angle, −sin angle)` and the shooter position passed as
parameters: the preview simulation with `maxSteps = 200`,
`maxBounces = 3`, starting with zero bounces. -/
def drawTrajectory (area : GameArea) (centers : List (ℚ × ℚ))
    (dx dy startX startY : ℚ) : TrajOutcome :=
  drawTrajectoryRun area centers 200 ⟨startX, startY, dx, dy, 0⟩

/-- The in-flight state of the shooting bubble: position and velocity
in px/s (rotation is presentation only). -/
structure FlightState where
  x : ℚ
  y : ℚ
  vx : ℚ
  vy : ℚ
deriving DecidableEq, Repr

/-- The way one frame of the flight ends. -/
inductive FlightOutcome where
  | stuck (x y : ℚ)
  | flying (s : FlightState)
deriving DecidableEq, Repr

/-- One frame of `updateShootingBubble()` (lines 1089–1126) with frame
time `delta` in seconds: move by `velocity * delta`, clamp and reflect
at the side walls, stick clamped at the ceiling, stick on grid contact
(`stickBubble` freezes the bubble at the current position; sounds and
rotation are presentation only). -/
def updateShootingBubble (area : GameArea) (centers : List (ℚ × ℚ))
    (delta : ℚ) (s : FlightState) : FlightOutcome :=
  let x0 := s.x + s.vx * delta
  let y0 := s.y + s.vy * delta
  let w : ℚ × ℚ :=
    if x0 - BUBBLE_RADIUS ≤ area.left then (area.left + BUBBLE_RADIUS, |s.vx|)
    else if x0 + BUBBLE_RADIUS ≥ area.right then
      (area.right - BUBBLE_RADIUS, -|s.vx|)
    else (x0, s.vx)
  if y0 - BUBBLE_RADIUS ≤ area.top then .stuck w.1 (area.top + BUBBLE_RADIUS)
  else if checkGridCollision centers w.1 y0 then .stuck w.1 y0
  else .flying ⟨w.1, y0, w.2, s.vy⟩

/-- Repeated frames of `updateShootingBubble` until the bubble sticks,
or `none` when it is still in flight after `fuel` frames: the JS has no
step budget here, it runs `updateShootingBubble` once per frame for as
long as the shooting bubble stays active. -/
def flightRun (area : GameArea) (centers : List (ℚ × ℚ)) (delta : ℚ) :
    Nat → FlightState → Option (ℚ × ℚ)
  | 0, _ => none
  | fuel + 1, s =>
    match updateShootingBubble area centers delta s with
    | .stuck x y => some (x, y)
    | .flying s' => flightRun area centers delta fuel s'

/-- `handleShoot(angle)` (lines 2048–2071): the launch velocity is the
direction vector `(cos angle, −sin angle)` times `BUBBLE_SPEED`, from
the shooter position. -/
def launchFlight (dx dy startX startY : ℚ) : FlightState :=
  ⟨startX, startY, dx * BUBBLE_SPEED, dy * BUBBLE_SPEED⟩

/-- The flight state corresponding to a preview state: same position,
velocity `BUBBLE_SPEED` times the preview direction (the bounce counter
has no flight counterpart). Used to compare the two steppers. -/
def toFlightState (s : TrajState) : FlightState :=
  ⟨s.x, s.y, s.dx * BUBBLE_SPEED, s.dy * BUBBLE_SPEED⟩

/-! ### Spec-side connectivity (from the spec, to compare with the BFS)

`adjacent` is one hop of the traversal: `b` is an occupant of a
`getNeighbors` cell of `a` that passes the filter; `reachableFrom` is
its reflexive-transitive closure from a seed list. -/

def adjacent (bpr : Int) (g : Grid) (keep : Bubble → Bool) (a b : Bubble) : Prop :=
  b ∈ g ∧ keep b = true ∧ bubbleKey b ∈ getNeighbors bpr a.row a.col

def reachableFrom (bpr : Int) (g : Grid) (keep : Bubble → Bool)
    (seeds : List Bubble) (b : Bubble) : Prop :=
  ∃ s ∈ seeds, Relation.ReflTransGen (adjacent bpr g keep) s b

/- Batteries seals the rational arithmetic definitions; reopening them
lets concrete trajectory evaluations reduce. -/
attribute [local semireducible] Rat.add Rat.sub Rat.mul Rat.inv

/-! ### Basic facts about validity and neighbors -/

lemma isOddRow_eq_emod {row : Int} (h : 0 ≤ row) :
    isOddRow row = decide (row % 2 = 1) := by
  unfold isOddRow
  rw [Int.tmod_eq_emod h (by norm_num)]
  rcases Int.emod_two_eq row with h2 | h2 <;> simp [h2]

lemma isValidGridCell_iff {bpr row col : Int} :
    isValidGridCell bpr row col = true ↔
      0 ≤ row ∧ 0 ≤ col ∧ col < (if row % 2 = 1 then bpr - 1 else bpr) := by
  unfold isValidGridCell
  by_cases hr : row < 0
  · simp [hr]
  · have hnn : 0 ≤ row := by omega
    rw [isOddRow_eq_emod hnn]
    by_cases hodd : row % 2 = 1 <;> simp [hr, hodd] <;> omega

/-- Membership in `getNeighbors` for an odd source row, spelled out. -/
lemma mem_getNeighbors_odd {bpr row col : Int} (p1 p2 : Int)
    (hrow : 0 ≤ row) (hodd : row % 2 = 1) :
    ((p1, p2) ∈ getNeighbors bpr row col) ↔
      (isValidGridCell bpr p1 p2 = true) ∧
        ((p1 = row - 1 ∧ p2 = col) ∨ (p1 = row - 1 ∧ p2 = col + 1) ∨
         (p1 = row ∧ p2 = col - 1) ∨ (p1 = row ∧ p2 = col + 1) ∨
         (p1 = row + 1 ∧ p2 = col) ∨ (p1 = row + 1 ∧ p2 = col + 1)) := by
  have hb : isOddRow row = true := by rw [isOddRow_eq_emod hrow]; simp [hodd]
  simp only [getNeighbors, hb, if_true, List.mem_filter, List.mem_map, List.mem_cons,
    List.not_mem_nil, or_false, Prod.mk.injEq]
  constructor
  · rintro ⟨⟨o, ho, h1, h2⟩, hv⟩
    refine ⟨hv, ?_⟩
    rcases ho with rfl | rfl | rfl | rfl | rfl | rfl <;> simp_all <;> omega
  · rintro ⟨hv, h⟩
    refine ⟨?_, hv⟩
    rcases h with ⟨h1, h2⟩ | ⟨h1, h2⟩ | ⟨h1, h2⟩ | ⟨h1, h2⟩ | ⟨h1, h2⟩ | ⟨h1, h2⟩
    · exact ⟨(-1, 0), by simp, by omega, by omega⟩
    · exact ⟨(-1, 1), by simp, by omega, by omega⟩
    · exact ⟨(0, -1), by simp, by omega, by omega⟩
    · exact ⟨(0, 1), by simp, by omega, by omega⟩
    · exact ⟨(1, 0), by simp, by omega, by omega⟩
    · exact ⟨(1, 1), by simp, by omega, by omega⟩

/-- Membership in `getNeighbors` for an even source row, spelled out. -/
lemma mem_getNeighbors_even {bpr row col : Int} (p1 p2 : Int)
    (hrow : 0 ≤ row) (heven : row % 2 = 0) :
    ((p1, p2) ∈ getNeighbors bpr row col) ↔
      (isValidGridCell bpr p1 p2 = true) ∧
        ((p1 = row - 1 ∧ p2 = col - 1) ∨ (p1 = row - 1 ∧ p2 = col) ∨
         (p1 = row ∧ p2 = col - 1) ∨ (p1 = row ∧ p2 = col + 1) ∨
         (p1 = row + 1 ∧ p2 = col - 1) ∨ (p1 = row + 1 ∧ p2 = col)) := by
  have hb : isOddRow row = false := by rw [isOddRow_eq_emod hrow]; simp [heven]
  simp only [getNeighbors, hb, if_false, Bool.false_eq_true, List.mem_filter, List.mem_map,
    List.mem_cons, List.not_mem_nil, or_false, Prod.mk.injEq]
  constructor
  · rintro ⟨⟨o, ho, h1, h2⟩, hv⟩
    refine ⟨hv, ?_⟩
    rcases ho with rfl | rfl | rfl | rfl | rfl | rfl <;> simp_all <;> omega
  · rintro ⟨hv, h⟩
    refine ⟨?_, hv⟩
    rcases h with ⟨h1, h2⟩ | ⟨h1, h2⟩ | ⟨h1, h2⟩ | ⟨h1, h2⟩ | ⟨h1, h2⟩ | ⟨h1, h2⟩
    · exact ⟨(-1, -1), by simp, by omega, by omega⟩
    · exact ⟨(-1, 0), by simp, by omega, by omega⟩
    · exact ⟨(0, -1), by simp, by omega, by omega⟩
    · exact ⟨(0, 1), by simp, by omega, by omega⟩
    · exact ⟨(1, -1), by simp, by omega, by omega⟩
    · exact ⟨(1, 0), by simp, by omega, by omega⟩

/-- Membership in `getNeighbors`, parity handled by an `if`, for a
nonnegative source row. -/
lemma mem_getNeighbors_arith {bpr row col : Int} (p1 p2 : Int) (hrow : 0 ≤ row) :
    ((p1, p2) ∈ getNeighbors bpr row col) ↔
      (0 ≤ p1 ∧ 0 ≤ p2 ∧ p2 < (if p1 % 2 = 1 then bpr - 1 else bpr)) ∧
        (if row % 2 = 1 then
          ((p1 = row - 1 ∧ p2 = col) ∨ (p1 = row - 1 ∧ p2 = col + 1) ∨
           (p1 = row ∧ p2 = col - 1) ∨ (p1 = row ∧ p2 = col + 1) ∨
           (p1 = row + 1 ∧ p2 = col) ∨ (p1 = row + 1 ∧ p2 = col + 1))
         else
          ((p1 = row - 1 ∧ p2 = col - 1) ∨ (p1 = row - 1 ∧ p2 = col) ∨
           (p1 = row ∧ p2 = col - 1) ∨ (p1 = row ∧ p2 = col + 1) ∨
           (p1 = row + 1 ∧ p2 = col - 1) ∨ (p1 = row + 1 ∧ p2 = col))) := by
  rcases Int.emod_two_eq row with h2 | h2
  · rw [mem_getNeighbors_even p1 p2 hrow h2, isValidGridCell_iff, h2]
    norm_num
  · rw [mem_getNeighbors_odd p1 p2 hrow h2, isValidGridCell_iff, h2]
    norm_num

set_option maxHeartbeats 3200000 in
/-- C10: over valid cells, the hexagonal neighbor relation of
`getNeighbors` is symmetric, and no cell is its own neighbor. -/
theorem getNeighbors_symm_irrefl (bpr r1 c1 r2 c2 : Int)
    (h1 : isValidGridCell bpr r1 c1 = true) (h2 : isValidGridCell bpr r2 c2 = true) :
    ((r2, c2) ∈ getNeighbors bpr r1 c1 ↔ (r1, c1) ∈ getNeighbors bpr r2 c2) ∧
      (r1, c1) ∉ getNeighbors bpr r1 c1 := by
  rw [isValidGridCell_iff] at h1 h2
  rw [mem_getNeighbors_arith r2 c2 h1.1, mem_getNeighbors_arith r1 c1 h2.1,
    mem_getNeighbors_arith r1 c1 h1.1]
  rcases Int.emod_two_eq r1 with hp1 | hp1 <;> rcases Int.emod_two_eq r2 with hp2 | hp2 <;>
    simp only [hp1, hp2] at h1 h2 ⊢ <;> norm_num at h1 h2 ⊢ <;> omega

/-- Witness for C10 at `bpr = 4`, cells `(0, 1)` and `(1, 0)`. -/
theorem getNeighbors_symm_irrefl_witness :
    (((1 : Int), (0 : Int)) ∈ getNeighbors 4 0 1 ↔ ((0 : Int), (1 : Int)) ∈ getNeighbors 4 1 0) ∧
      ((0 : Int), (1 : Int)) ∉ getNeighbors 4 0 1 :=
  getNeighbors_symm_irrefl 4 0 1 1 0 (by decide) (by decide)

/-- C9: `getDescentIntervalForScore` is monotonically non-increasing in
the score and never drops below `MIN_DESCENT_INTERVAL`. -/
theorem getDescentIntervalForScore_antitone_min (s t : Nat) (h : s ≤ t) :
    getDescentIntervalForScore t ≤ getDescentIntervalForScore s ∧
      MIN_DESCENT_INTERVAL ≤ getDescentIntervalForScore t := by
  simp only [getDescentIntervalForScore, DESCENT_SPEED_THRESHOLDS,
    INITIAL_DESCENT_INTERVAL, MIN_DESCENT_INTERVAL, List.foldl]
  split_ifs <;> omega

/-- Witness for C9 at scores `100 ≤ 600`. -/
theorem getDescentIntervalForScore_antitone_min_witness :
    getDescentIntervalForScore 600 ≤ getDescentIntervalForScore 100 ∧
      MIN_DESCENT_INTERVAL ≤ getDescentIntervalForScore 600 :=
  getDescentIntervalForScore_antitone_min 100 600 (by decide)

/-! ### Registry lookup facts -/

lemma getBubbleAtCell_eq_some {g : Grid} {row col : Int} {b : Bubble}
    (h : getBubbleAtCell g row col = some b) : b ∈ g ∧ b.row = row ∧ b.col = col := by
  unfold getBubbleAtCell at h
  have hmem := List.mem_of_find?_eq_some h
  have hp := List.find?_some h
  simp only [Bool.and_eq_true, beq_iff_eq] at hp
  exact ⟨hmem, hp.1, hp.2⟩

lemma cellsNodup_key_inj {g : Grid} (hg : cellsNodup g) {a b : Bubble}
    (ha : a ∈ g) (hb : b ∈ g) (hk : bubbleKey a = bubbleKey b) : a = b :=
  List.inj_on_of_nodup_map hg ha hb hk

lemma getBubbleAtCell_self {g : Grid} (hg : cellsNodup g) {b : Bubble} (hb : b ∈ g) :
    getBubbleAtCell g b.row b.col = some b := by
  cases h : getBubbleAtCell g b.row b.col with
  | none =>
    exfalso
    exact List.find?_eq_none.mp h b hb (by simp)
  | some b' =>
    obtain ⟨hb', hr, hc⟩ := getBubbleAtCell_eq_some h
    have : b' = b := cellsNodup_key_inj hg hb' hb (by simp [bubbleKey, hr, hc])
    rw [this]

lemma nodup_subset_length_le {α : Type*} [DecidableEq α] {l1 l2 : List α}
    (h1 : l1.Nodup) (hsub : ∀ a ∈ l1, a ∈ l2) : l1.length ≤ l2.length := by
  calc l1.length = l1.toFinset.card := (List.toFinset_card_of_nodup h1).symm
  _ ≤ l2.toFinset.card := Finset.card_le_card (fun a ha => by
        simp only [List.mem_toFinset] at *; exact hsub a ha)
  _ ≤ l2.length := l2.toFinset_card_le

/-! ### Correctness of the inner flood-fill loop -/

lemma visitNeighbors_spec (g : Grid) (keep : Bubble → Bool) :
    ∀ (ns : List (Int × Int)) (visited : List (Int × Int)) (acc : List Bubble),
      ∃ adds : List Bubble,
        (visitNeighbors g keep ns visited acc).2 = acc ++ adds ∧
        List.Perm (visitNeighbors g keep ns visited acc).1 (adds.map bubbleKey ++ visited) ∧
        (visited.Nodup → (visitNeighbors g keep ns visited acc).1.Nodup) ∧
        (∀ b ∈ adds, b ∈ g ∧ keep b = true ∧ bubbleKey b ∈ ns ∧ bubbleKey b ∉ visited) ∧
        (∀ n ∈ ns, ∀ b, getBubbleAtCell g n.1 n.2 = some b → keep b = true →
          n ∈ (visitNeighbors g keep ns visited acc).1) := by
  intro ns
  induction ns with
  | nil =>
    intro visited acc
    exact ⟨[], by simp [visitNeighbors], by simp [visitNeighbors], fun h => by
      simpa [visitNeighbors] using h, by simp, by simp⟩
  | cons n rest ih =>
    intro visited acc
    by_cases hvis : n ∈ visited
    · obtain ⟨adds, h2, hperm, hnd, hadds, hcomp⟩ := ih visited acc
      refine ⟨adds, ?_, ?_, ?_, ?_, ?_⟩
      · simpa [visitNeighbors, hvis] using h2
      · simpa [visitNeighbors, hvis] using hperm
      · simpa [visitNeighbors, hvis] using hnd
      · intro b hb
        obtain ⟨h1, h2', h3, h4⟩ := hadds b hb
        exact ⟨h1, h2', List.mem_cons_of_mem _ h3, h4⟩
      · intro m hm b hb hkeep
        simp only [visitNeighbors, hvis, if_true]
        rcases List.mem_cons.mp hm with rfl | hm'
        · exact hperm.mem_iff.mpr (List.mem_append_right _ hvis)
        · exact hcomp m hm' b hb hkeep
    · cases hcell : getBubbleAtCell g n.1 n.2 with
      | none =>
        obtain ⟨adds, h2, hperm, hnd, hadds, hcomp⟩ := ih visited acc
        refine ⟨adds, ?_, ?_, ?_, ?_, ?_⟩
        · simpa [visitNeighbors, hvis, hcell] using h2
        · simpa [visitNeighbors, hvis, hcell] using hperm
        · simpa [visitNeighbors, hvis, hcell] using hnd
        · intro b hb
          obtain ⟨h1, h2', h3, h4⟩ := hadds b hb
          exact ⟨h1, h2', List.mem_cons_of_mem _ h3, h4⟩
        · intro m hm b hb hkeep
          simp only [visitNeighbors, hvis, hcell, if_false]
          rcases List.mem_cons.mp hm with rfl | hm'
          · rw [hcell] at hb; cases hb
          · exact hcomp m hm' b hb hkeep
      | some b0 =>
        by_cases hkeep0 : keep b0 = true
        · obtain ⟨hb0g, hb0r, hb0c⟩ := getBubbleAtCell_eq_some hcell
          have hkey0 : bubbleKey b0 = n := by
            simp [bubbleKey, hb0r, hb0c]
          obtain ⟨adds, h2, hperm, hnd, hadds, hcomp⟩ := ih (n :: visited) (acc ++ [b0])
          refine ⟨b0 :: adds, ?_, ?_, ?_, ?_, ?_⟩
          · simp only [visitNeighbors, hvis, hcell, hkeep0, if_false, if_true]
            rw [h2]; simp
          · simp only [visitNeighbors, hvis, hcell, hkeep0, if_false, if_true]
            refine hperm.trans ?_
            simp only [List.map_cons, hkey0]
            exact List.perm_middle
          · intro hvnd
            simp only [visitNeighbors, hvis, hcell, hkeep0, if_false, if_true]
            exact hnd (List.nodup_cons.mpr ⟨hvis, hvnd⟩)
          · intro b hb
            rcases List.mem_cons.mp hb with rfl | hb'
            · exact ⟨hb0g, hkeep0, by rw [hkey0]; exact List.mem_cons_self n rest,
                by rw [hkey0]; exact hvis⟩
            · obtain ⟨h1', h2', h3', h4'⟩ := hadds b hb'
              exact ⟨h1', h2', List.mem_cons_of_mem _ h3',
                fun hc => h4' (List.mem_cons_of_mem _ hc)⟩
          · intro m hm b hb hkeep
            simp only [visitNeighbors, hvis, hcell, hkeep0, if_false, if_true]
            rcases List.mem_cons.mp hm with rfl | hm'
            · exact hperm.mem_iff.mpr (List.mem_append_right _ (List.mem_cons_self _ _))
            · exact hcomp m hm' b hb hkeep
        · have hkeep0' : keep b0 = false := by
            cases h : keep b0
            · rfl
            · exact absurd h hkeep0
          obtain ⟨adds, h2, hperm, hnd, hadds, hcomp⟩ := ih visited acc
          refine ⟨adds, ?_, ?_, ?_, ?_, ?_⟩
          · simpa [visitNeighbors, hvis, hcell, hkeep0'] using h2
          · simpa [visitNeighbors, hvis, hcell, hkeep0'] using hperm
          · simpa [visitNeighbors, hvis, hcell, hkeep0'] using hnd
          · intro b hb
            obtain ⟨h1, h2', h3, h4⟩ := hadds b hb
            exact ⟨h1, h2', List.mem_cons_of_mem _ h3, h4⟩
          · intro m hm b hb hkeep
            simp only [visitNeighbors, hvis, hcell, hkeep0', if_false]
            rcases List.mem_cons.mp hm with rfl | hm'
            · rw [hcell] at hb
              cases hb
              rw [hkeep] at hkeep0'
              cases hkeep0'
            · exact hcomp m hm' b hb hkeep

/-! ### Correctness of the outer flood-fill loop -/

lemma bfsAux_spec (g : Grid) (bpr : Int) (keep : Bubble → Bool) (seeds : List Bubble)
    (hg : cellsNodup g) :
    ∀ (fuel : Nat) (queue : List Bubble) (visited : List (Int × Int)) (conn : List Bubble),
      queue.length + g.length ≤ fuel + visited.length →
      visited.Nodup →
      List.Perm visited (conn.map bubbleKey) →
      (∀ b ∈ queue, b ∈ conn) →
      (∀ b ∈ conn, b ∈ g) →
      (∀ b ∈ conn, reachableFrom bpr g keep seeds b) →
      (∀ a ∈ conn, a ∉ queue → ∀ b, adjacent bpr g keep a b → b ∈ conn) →
      List.Perm (bfsAux g bpr keep fuel queue visited conn).1
          ((bfsAux g bpr keep fuel queue visited conn).2.map bubbleKey) ∧
        (bfsAux g bpr keep fuel queue visited conn).1.Nodup ∧
        (∃ ext, (bfsAux g bpr keep fuel queue visited conn).2 = conn ++ ext) ∧
        (∀ b ∈ (bfsAux g bpr keep fuel queue visited conn).2,
          b ∈ g ∧ reachableFrom bpr g keep seeds b) ∧
        (∀ a ∈ (bfsAux g bpr keep fuel queue visited conn).2, ∀ b,
          adjacent bpr g keep a b → b ∈ (bfsAux g bpr keep fuel queue visited conn).2) := by
  intro fuel
  induction fuel with
  | zero =>
    intro queue visited conn hlen hnd hperm hqc hcg hreach hclosed
    have hvsub : ∀ k ∈ visited, k ∈ g.map bubbleKey := by
      intro k hk
      obtain ⟨b, hb, rfl⟩ := List.mem_map.mp (hperm.mem_iff.mp hk)
      exact List.mem_map.mpr ⟨b, hcg b hb, rfl⟩
    have hvlen : visited.length ≤ g.length := by
      have := nodup_subset_length_le hnd hvsub
      simpa using this
    have hq0 : queue = [] := List.length_eq_zero.mp (by omega)
    subst hq0
    simp only [bfsAux]
    refine ⟨hperm, hnd, ⟨[], by simp⟩, fun b hb => ⟨hcg b hb, hreach b hb⟩, ?_⟩
    intro a ha b hadj
    exact hclosed a ha (by simp) b hadj
  | succ fuel ih =>
    intro queue visited conn hlen hnd hperm hqc hcg hreach hclosed
    cases queue with
    | nil =>
      simp only [bfsAux]
      refine ⟨hperm, hnd, ⟨[], by simp⟩, fun b hb => ⟨hcg b hb, hreach b hb⟩, ?_⟩
      intro a ha b hadj
      exact hclosed a ha (by simp) b hadj
    | cons cur rest =>
      obtain ⟨adds, hadds2, haddsperm, haddsnd, haddsmem, haddscomp⟩ :=
        visitNeighbors_spec g keep (getNeighbors bpr cur.row cur.col) visited []
      have hr2 : (visitNeighbors g keep (getNeighbors bpr cur.row cur.col) visited []).2
          = adds := by simpa using hadds2
      simp only [bfsAux, hr2]
      have hlen' : (rest ++ adds).length + g.length ≤
          fuel + (visitNeighbors g keep (getNeighbors bpr cur.row cur.col) visited []).1.length := by
        have hvlen' := haddsperm.length_eq
        simp only [List.length_append, List.length_map] at hvlen' ⊢
        simp only [List.length_cons] at hlen
        omega
      have hnd' := haddsnd hnd
      have hperm' : List.Perm
          (visitNeighbors g keep (getNeighbors bpr cur.row cur.col) visited []).1
          ((conn ++ adds).map bubbleKey) := by
        refine haddsperm.trans ?_
        rw [List.map_append]
        refine ((hperm.append_left (adds.map bubbleKey)).trans ?_)
        exact List.perm_append_comm
      have hqc' : ∀ b ∈ rest ++ adds, b ∈ conn ++ adds := by
        intro b hb
        rcases List.mem_append.mp hb with hb | hb
        · exact List.mem_append_left _ (hqc b (List.mem_cons_of_mem _ hb))
        · exact List.mem_append_right _ hb
      have hcg' : ∀ b ∈ conn ++ adds, b ∈ g := by
        intro b hb
        rcases List.mem_append.mp hb with hb | hb
        · exact hcg b hb
        · exact (haddsmem b hb).1
      have hcurreach : reachableFrom bpr g keep seeds cur :=
        hreach cur (hqc cur (List.mem_cons_self _ _))
      have hreach' : ∀ b ∈ conn ++ adds, reachableFrom bpr g keep seeds b := by
        intro b hb
        rcases List.mem_append.mp hb with hb | hb
        · exact hreach b hb
        · obtain ⟨hbg, hbk, hbn, _⟩ := haddsmem b hb
          obtain ⟨s, hs, hrtg⟩ := hcurreach
          exact ⟨s, hs, hrtg.tail ⟨hbg, hbk, hbn⟩⟩
      have hclosed' : ∀ a ∈ conn ++ adds, a ∉ rest ++ adds →
          ∀ b, adjacent bpr g keep a b → b ∈ conn ++ adds := by
        intro a ha hanq b hadj
        rcases List.mem_append.mp ha with ha | ha
        · by_cases hac : a = cur
          · subst hac
            obtain ⟨hbg, hbk, hbn⟩ := hadj
            have hcell : getBubbleAtCell g (bubbleKey b).1 (bubbleKey b).2 = some b :=
              getBubbleAtCell_self hg hbg
            have hkv := haddscomp (bubbleKey b) hbn b hcell hbk
            rcases List.mem_append.mp (haddsperm.mem_iff.mp hkv) with hk | hk
            · obtain ⟨b', hb', hbk'⟩ := List.mem_map.mp hk
              have : b' = b := cellsNodup_key_inj hg ((haddsmem b' hb').1) hbg hbk'
              exact List.mem_append_right _ (this ▸ hb')
            · rcases List.mem_map.mp (hperm.mem_iff.mp hk) with ⟨b', hb', hbk'⟩
              have : b' = b := cellsNodup_key_inj hg (hcg b' hb') hbg hbk'
              exact List.mem_append_left _ (this ▸ hb')
          · have hanr : a ∉ cur :: rest := by
              intro hc
              rcases List.mem_cons.mp hc with rfl | hc
              · exact hac rfl
              · exact hanq (List.mem_append_left _ hc)
            exact List.mem_append_left _ (hclosed a ha hanr b hadj)
        · exact absurd (List.mem_append_right rest ha) hanq
      obtain ⟨hp1, hp2, ⟨ext, hext⟩, hp4, hp5⟩ :=
        ih (rest ++ adds) _ (conn ++ adds) hlen' hnd' hperm' hqc' hcg' hreach' hclosed'
      exact ⟨hp1, hp2, ⟨adds ++ ext, by rw [hext, List.append_assoc]⟩, hp4, hp5⟩

/-- The two flood-fill call sites instantiated: starting from `seeds`
with visited set exactly the seed keys, the search returns exactly the
bubbles reachable from the seeds, with distinct cells, and the visited
set holds exactly their keys. -/
lemma bfsAux_run (g : Grid) (bpr : Int) (keep : Bubble → Bool) (seeds : List Bubble)
    (hg : cellsNodup g) (hsg : ∀ b ∈ seeds, b ∈ g)
    (hsnd : (seeds.map bubbleKey).Nodup) (fuel : Nat) (hfuel : g.length ≤ fuel) :
    (∀ b, b ∈ (bfsAux g bpr keep fuel seeds (seeds.map bubbleKey) seeds).2 ↔
      b ∈ g ∧ reachableFrom bpr g keep seeds b) ∧
    (∀ k, k ∈ (bfsAux g bpr keep fuel seeds (seeds.map bubbleKey) seeds).1 ↔
      ∃ b ∈ (bfsAux g bpr keep fuel seeds (seeds.map bubbleKey) seeds).2, bubbleKey b = k) ∧
    ((bfsAux g bpr keep fuel seeds (seeds.map bubbleKey) seeds).2.map bubbleKey).Nodup := by
  obtain ⟨hp1, hp2, ⟨ext, hext⟩, hp4, hp5⟩ :=
    bfsAux_spec g bpr keep seeds hg fuel seeds (seeds.map bubbleKey) seeds
      (by simp only [List.length_map]; omega) hsnd (List.Perm.refl _)
      (fun b hb => hb) hsg (fun b hb => ⟨b, hb, Relation.ReflTransGen.refl⟩)
      (fun a ha hna b hadj => absurd ha hna)
  refine ⟨?_, ?_, (hp1.nodup_iff).mp hp2⟩
  · intro b
    constructor
    · exact hp4 b
    · rintro ⟨hbg, s, hs, hrtg⟩
      clear hbg
      induction hrtg with
      | refl => rw [hext]; exact List.mem_append_left _ hs
      | tail hab hbc ihs => exact hp5 _ ihs _ hbc
  · intro k
    constructor
    · intro hk
      obtain ⟨b, hb, rfl⟩ := List.mem_map.mp (hp1.mem_iff.mp hk)
      exact ⟨b, hb, rfl⟩
    · rintro ⟨b, hb, rfl⟩
      exact hp1.mem_iff.mpr (List.mem_map.mpr ⟨b, hb, rfl⟩)

/-! ### Removing a list of bubbles from the registry -/

lemma foldl_erase_spec (l : List Bubble) :
    ∀ (g : Grid), g.Nodup →
      (l.foldl (fun acc b => acc.erase b) g).Nodup ∧
      ∀ b, b ∈ l.foldl (fun acc b => acc.erase b) g ↔ b ∈ g ∧ b ∉ l := by
  induction l with
  | nil => intro g hg; simp [hg]
  | cons a rest ih =>
    intro g hg
    have hg' : (g.erase a).Nodup := hg.erase a
    obtain ⟨h1, h2⟩ := ih (g.erase a) hg'
    rw [List.foldl_cons]
    refine ⟨h1, ?_⟩
    intro b
    rw [h2 b, List.Nodup.mem_erase_iff hg, List.mem_cons]
    tauto

/-! ### C1: the pop rule -/

/-- C1: `findConnectedBubbles` returns exactly the maximal same-color
connected component of the newly settled bubble (as the set of bubbles
reachable from it through same-colored occupied `getNeighbors` cells,
with no duplicate cell, so its length is the component size);
`checkAndPopMatches` removes every member of that component from the
registry and credits `length * POINTS_PER_POP` exactly when the
component size is at least 3, and leaves the grid untouched with no
credit when it is smaller. -/
theorem checkAndPopMatches_popThreshold (bpr : Int) (g : Grid) (start : Bubble)
    (hmem : start ∈ g) (hg : cellsNodup g) :
    (∀ b, b ∈ findConnectedBubbles bpr g start ↔
        b ∈ g ∧ Relation.ReflTransGen
          (adjacent bpr g (fun x => x.color == start.color)) start b) ∧
    ((findConnectedBubbles bpr g start).map bubbleKey).Nodup ∧
    (3 ≤ (findConnectedBubbles bpr g start).length →
      (∀ b, b ∈ (checkAndPopMatches bpr g start).1 ↔
          b ∈ g ∧ ¬ Relation.ReflTransGen
            (adjacent bpr g (fun x => x.color == start.color)) start b) ∧
      (checkAndPopMatches bpr g start).2 =
        (findConnectedBubbles bpr g start).length * POINTS_PER_POP) ∧
    ((findConnectedBubbles bpr g start).length < 3 →
      checkAndPopMatches bpr g start = (g, 0)) := by
  have hsg : ∀ b ∈ [start], b ∈ g := by
    intro b hb
    rcases List.mem_cons.mp hb with rfl | hb
    · exact hmem
    · cases hb
  obtain ⟨hmemiff, _, hnd⟩ := bfsAux_run g bpr (fun x => x.color == start.color) [start]
    hg hsg (by simp) (g.length + 1) (by omega)
  have hconn : findConnectedBubbles bpr g start =
      (bfsAux g bpr (fun x => x.color == start.color) (g.length + 1)
        [start] ([start].map bubbleKey) [start]).2 := by
    simp [findConnectedBubbles]
  have hchar : ∀ b, b ∈ findConnectedBubbles bpr g start ↔
      b ∈ g ∧ Relation.ReflTransGen
        (adjacent bpr g (fun x => x.color == start.color)) start b := by
    intro b
    rw [hconn, hmemiff b]
    unfold reachableFrom
    simp
  refine ⟨hchar, hconn ▸ hnd, ?_, ?_⟩
  · intro h3
    constructor
    · intro b
      have hpop : (checkAndPopMatches bpr g start).1 =
          popBubbles g (findConnectedBubbles bpr g start) := by
        simp only [checkAndPopMatches, if_pos h3]
      rw [hpop]
      simp only [popBubbles, removeBubbleFromGrid]
      rw [(foldl_erase_spec _ g (hg.of_map _)).2 b]
      constructor
      · rintro ⟨hbg, hbc⟩
        exact ⟨hbg, fun hr => hbc ((hchar b).mpr ⟨hbg, hr⟩)⟩
      · rintro ⟨hbg, hbr⟩
        exact ⟨hbg, fun hc => hbr ((hchar b).mp hc).2⟩
    · simp only [checkAndPopMatches, if_pos h3]
  · intro h3
    have hneg : ¬ 3 ≤ (findConnectedBubbles bpr g start).length := by omega
    simp only [checkAndPopMatches, if_neg hneg]

/-- Witness for C1: three same-colored bubbles in row 0 of a 4-column
grid, the shot settling at column 2, pop as a component of size 3. -/
theorem checkAndPopMatches_popThreshold_witness :
    (∀ b, b ∈ findConnectedBubbles 4 [⟨0,0,1⟩, ⟨0,1,1⟩, ⟨0,2,1⟩] ⟨0,2,1⟩ ↔
        b ∈ [(⟨0,0,1⟩ : Bubble), ⟨0,1,1⟩, ⟨0,2,1⟩] ∧ Relation.ReflTransGen
          (adjacent 4 [⟨0,0,1⟩, ⟨0,1,1⟩, ⟨0,2,1⟩] (fun x => x.color == 1)) ⟨0,2,1⟩ b) ∧
    ((findConnectedBubbles 4 [⟨0,0,1⟩, ⟨0,1,1⟩, ⟨0,2,1⟩] ⟨0,2,1⟩).map bubbleKey).Nodup ∧
    (3 ≤ (findConnectedBubbles 4 [⟨0,0,1⟩, ⟨0,1,1⟩, ⟨0,2,1⟩] ⟨0,2,1⟩).length →
      (∀ b, b ∈ (checkAndPopMatches 4 [⟨0,0,1⟩, ⟨0,1,1⟩, ⟨0,2,1⟩] ⟨0,2,1⟩).1 ↔
          b ∈ [(⟨0,0,1⟩ : Bubble), ⟨0,1,1⟩, ⟨0,2,1⟩] ∧ ¬ Relation.ReflTransGen
            (adjacent 4 [⟨0,0,1⟩, ⟨0,1,1⟩, ⟨0,2,1⟩] (fun x => x.color == 1)) ⟨0,2,1⟩ b) ∧
      (checkAndPopMatches 4 [⟨0,0,1⟩, ⟨0,1,1⟩, ⟨0,2,1⟩] ⟨0,2,1⟩).2 =
        (findConnectedBubbles 4 [⟨0,0,1⟩, ⟨0,1,1⟩, ⟨0,2,1⟩] ⟨0,2,1⟩).length * POINTS_PER_POP) ∧
    ((findConnectedBubbles 4 [⟨0,0,1⟩, ⟨0,1,1⟩, ⟨0,2,1⟩] ⟨0,2,1⟩).length < 3 →
      checkAndPopMatches 4 [⟨0,0,1⟩, ⟨0,1,1⟩, ⟨0,2,1⟩] ⟨0,2,1⟩ = ([⟨0,0,1⟩, ⟨0,1,1⟩, ⟨0,2,1⟩], 0)) :=
  checkAndPopMatches_popThreshold 4 [⟨0,0,1⟩, ⟨0,1,1⟩, ⟨0,2,1⟩] ⟨0,2,1⟩
    (by decide) (by decide)

/-! ### C2: detaching floating bubbles -/

/-- C2: `findFloatingBubbles` returns exactly the settled bubbles not
reachable from any row-0 occupant through occupied `getNeighbors`
chains; the deferred float check removes exactly those from the
registry, hands exactly that list to the falling-bubble collection, and
credits `floating.length * POINTS_PER_FALL`. -/
theorem findFloatingBubbles_detachesUnreachable (bpr : Int) (g : Grid)
    (hg : cellsNodup g) :
    (∀ b, b ∈ findFloatingBubbles bpr g ↔
        b ∈ g ∧ ¬ ∃ s, s ∈ g ∧ s.row = 0 ∧
          Relation.ReflTransGen (adjacent bpr g (fun _ => true)) s b) ∧
    (∀ b, b ∈ (floatCheck bpr g).1 ↔
        b ∈ g ∧ ∃ s, s ∈ g ∧ s.row = 0 ∧
          Relation.ReflTransGen (adjacent bpr g (fun _ => true)) s b) ∧
    (floatCheck bpr g).2.1 = findFloatingBubbles bpr g ∧
    (floatCheck bpr g).2.2 = (findFloatingBubbles bpr g).length * POINTS_PER_FALL := by
  set seeds := g.filter (fun b => b.row == 0) with hseeds
  have hsg : ∀ b ∈ seeds, b ∈ g := fun b hb => (List.mem_filter.mp hb).1
  have hsnd : (seeds.map bubbleKey).Nodup :=
    ((List.filter_sublist g).map bubbleKey).nodup hg
  obtain ⟨hmemiff, hkeyiff, _⟩ := bfsAux_run g bpr (fun _ => true) seeds hg hsg hsnd
    (g.length + seeds.length) (by omega)
  have hreachiff : ∀ b, reachableFrom bpr g (fun _ => true) seeds b ↔
      ∃ s, s ∈ g ∧ s.row = 0 ∧
        Relation.ReflTransGen (adjacent bpr g (fun _ => true)) s b := by
    intro b
    unfold reachableFrom
    constructor
    · rintro ⟨s, hs, hrtg⟩
      obtain ⟨hsg', hs0⟩ := List.mem_filter.mp hs
      exact ⟨s, hsg', by simpa using hs0, hrtg⟩
    · rintro ⟨s, hsg', hs0, hrtg⟩
      exact ⟨s, List.mem_filter.mpr ⟨hsg', by simpa using hs0⟩, hrtg⟩
  have hfloat : ∀ b, b ∈ findFloatingBubbles bpr g ↔
      b ∈ g ∧ ¬ ∃ s, s ∈ g ∧ s.row = 0 ∧
        Relation.ReflTransGen (adjacent bpr g (fun _ => true)) s b := by
    intro b
    unfold findFloatingBubbles
    rw [← hseeds]
    rw [List.mem_filter]
    simp only [decide_eq_true_eq]
    constructor
    · rintro ⟨hbg, hbv⟩
      refine ⟨hbg, fun hr => hbv ?_⟩
      rw [hkeyiff]
      exact ⟨b, (hmemiff b).mpr ⟨hbg, (hreachiff b).mpr hr⟩, rfl⟩
    · rintro ⟨hbg, hbr⟩
      refine ⟨hbg, fun hv => hbr ?_⟩
      rw [hkeyiff] at hv
      obtain ⟨b', hb', hbk⟩ := hv
      have hb'g := ((hmemiff b').mp hb').1
      have : b' = b := cellsNodup_key_inj hg hb'g hbg hbk
      subst this
      exact (hreachiff b').mp ((hmemiff b').mp hb').2
  refine ⟨hfloat, ?_, ?_, ?_⟩
  · intro b
    unfold floatCheck
    by_cases hpos : 0 < (findFloatingBubbles bpr g).length
    · rw [if_pos hpos]
      simp only [dropFloatingBubbles]
      rw [(foldl_erase_spec _ g (hg.of_map _)).2 b]
      constructor
      · rintro ⟨hbg, hbf⟩
        refine ⟨hbg, ?_⟩
        by_contra hbr
        exact hbf ((hfloat b).mpr ⟨hbg, hbr⟩)
      · rintro ⟨hbg, hbr⟩
        exact ⟨hbg, fun hbf => (((hfloat b).mp hbf).2) hbr⟩
    · rw [if_neg hpos]
      have hempty : findFloatingBubbles bpr g = [] :=
        List.length_eq_zero.mp (by omega)
      constructor
      · intro hbg
        refine ⟨hbg, ?_⟩
        by_contra hbr
        have : b ∈ findFloatingBubbles bpr g := (hfloat b).mpr ⟨hbg, hbr⟩
        rw [hempty] at this
        cases this
      · rintro ⟨hbg, _⟩
        exact hbg
  · unfold floatCheck
    by_cases hpos : 0 < (findFloatingBubbles bpr g).length
    · rw [if_pos hpos]
    · rw [if_neg hpos]
      exact (List.length_eq_zero.mp (by omega)).symm
  · unfold floatCheck
    by_cases hpos : 0 < (findFloatingBubbles bpr g).length
    · rw [if_pos hpos]
    · rw [if_neg hpos]
      have hempty : findFloatingBubbles bpr g = [] :=
        List.length_eq_zero.mp (by omega)
      rw [hempty]
      rfl

/-- Witness for C2: a two-bubble grid where the bubble at row 2 is not
ceiling-connected. -/
theorem findFloatingBubbles_detachesUnreachable_witness :
    (∀ b, b ∈ findFloatingBubbles 4 [⟨0,0,1⟩, ⟨2,0,2⟩] ↔
        b ∈ [(⟨0,0,1⟩ : Bubble), ⟨2,0,2⟩] ∧ ¬ ∃ s, s ∈ [(⟨0,0,1⟩ : Bubble), ⟨2,0,2⟩] ∧ s.row = 0 ∧
          Relation.ReflTransGen (adjacent 4 [⟨0,0,1⟩, ⟨2,0,2⟩] (fun _ => true)) s b) ∧
    (∀ b, b ∈ (floatCheck 4 [⟨0,0,1⟩, ⟨2,0,2⟩]).1 ↔
        b ∈ [(⟨0,0,1⟩ : Bubble), ⟨2,0,2⟩] ∧ ∃ s, s ∈ [(⟨0,0,1⟩ : Bubble), ⟨2,0,2⟩] ∧ s.row = 0 ∧
          Relation.ReflTransGen (adjacent 4 [⟨0,0,1⟩, ⟨2,0,2⟩] (fun _ => true)) s b) ∧
    (floatCheck 4 [⟨0,0,1⟩, ⟨2,0,2⟩]).2.1 = findFloatingBubbles 4 [⟨0,0,1⟩, ⟨2,0,2⟩] ∧
    (floatCheck 4 [⟨0,0,1⟩, ⟨2,0,2⟩]).2.2 =
      (findFloatingBubbles 4 [⟨0,0,1⟩, ⟨2,0,2⟩]).length * POINTS_PER_FALL :=
  findFloatingBubbles_detachesUnreachable 4 [⟨0,0,1⟩, ⟨2,0,2⟩] (by decide)

/-! ### C3: the occupancy invariant -/

lemma applyGridOp_preserves_cellsNodup (bpr : Int) (g : Grid) (op : GridOp)
    (hg : cellsNodup g) : cellsNodup (applyGridOp bpr g op) := by
  cases op with
  | insert row col color =>
    simp only [applyGridOp, addBubbleToGrid]
    split_ifs with h1 h2
    · exact hg
    · exact hg
    · unfold cellsNodup at *
      rw [List.map_append, List.nodup_append]
      refine ⟨hg, by simp, ?_⟩
      intro k hk hk'
      simp only [List.map_cons, List.map_nil, List.mem_singleton] at hk'
      obtain ⟨x, hx, hxk⟩ := List.mem_map.mp hk
      have hnone : getBubbleAtCell g row col = none := by
        cases hcell : getBubbleAtCell g row col
        · rfl
        · rw [hcell] at h2; simp at h2
      have := List.find?_eq_none.mp hnone x hx
      apply this
      have : x.row = row ∧ x.col = col := by
        rw [hk'] at hxk
        simpa [bubbleKey, Prod.ext_iff] using hxk
      simp [this.1, this.2]
  | remove b =>
    unfold cellsNodup at *
    exact ((List.erase_sublist b g).map bubbleKey).nodup hg

lemma applyGridOps_preserves_cellsNodup (bpr : Int) (ops : List GridOp) :
    ∀ g : Grid, cellsNodup g → cellsNodup (applyGridOps bpr g ops) := by
  induction ops with
  | nil => intro g hg; exact hg
  | cons op rest ih =>
    intro g hg
    simp only [applyGridOps, List.foldl_cons]
    exact ih _ (applyGridOp_preserves_cellsNodup bpr g op hg)

/-- C3: `addBubbleToGrid` is a silent no-op on an invalid or occupied
cell, and along any sequence of insert/remove operations from the empty
registry at most one settled bubble ever occupies a cell. -/
theorem gridOccupancyInvariant (bpr : Int) (ops : List GridOp) :
    (∀ (g : Grid) (row col : Int) (color : Nat),
      (isValidGridCell bpr row col = false ∨ (getBubbleAtCell g row col).isSome = true) →
        addBubbleToGrid bpr g row col color = (none, g)) ∧
    cellsNodup (applyGridOps bpr [] ops) := by
  constructor
  · intro g row col color h
    unfold addBubbleToGrid
    rcases h with h | h
    · rw [if_pos (by simp [h])]
    · by_cases hv : isValidGridCell bpr row col = true
      · rw [if_neg (by simp [hv]), if_pos h]
      · rw [if_pos (by simpa using hv)]
  · exact applyGridOps_preserves_cellsNodup bpr ops [] (by simp [cellsNodup])

/-- Witness for C3: a duplicate insert at (0,0) is refused, and a small
operation sequence keeps cells distinct. -/
theorem gridOccupancyInvariant_witness :
    (addBubbleToGrid 4 [⟨0,0,5⟩] 0 0 7 = (none, [⟨0,0,5⟩])) ∧
    cellsNodup (applyGridOps 4 []
      [.insert 0 0 5, .insert 0 0 7, .insert 1 0 6, .remove ⟨0,0,5⟩]) :=
  ⟨(gridOccupancyInvariant 4 []).1 [⟨0,0,5⟩] 0 0 7 (Or.inr (by decide)),
   (gridOccupancyInvariant 4
      [.insert 0 0 5, .insert 0 0 7, .insert 1 0 6, .remove ⟨0,0,5⟩]).2⟩

/-! ### C4: descent versus the column-range invariant -/

/-- C4 (refuting evaluation): with `bubblesPerRow = 3`, the grid holding
one bubble at the last column of (even, full) row 0 is entirely valid,
yet after one `descendGrid` that bubble sits at cell (1, 2), which
`isValidGridCell` rejects — odd rows only admit columns 0 and 1. So the
descent step does not preserve the column-range invariant. -/
theorem descendGrid_breaksColumnRange :
    (∀ b ∈ [(⟨0,2,1⟩ : Bubble)], isValidGridCell 3 b.row b.col = true) ∧
    (⟨1,2,1⟩ : Bubble) ∈ descendGrid 3 false [⟨0,2,1⟩] (fun _ => 2) ∧
    isValidGridCell 3 1 2 = false := by decide

/-! ### C5: the shape of a descent step -/

/-- C5: after a single descent in a live session, every settled bubble
that was at (r, c) is at (r+1, c) with unchanged color, and row 0 of
the result is exactly a fully populated fresh row, one newly rolled
bubble per column of a full row. -/
theorem descendGrid_shift_and_refill (bpr : Int) (g : Grid) (newColors : Nat → Nat)
    (hrows : ∀ b ∈ g, 0 ≤ b.row) :
    (∀ b ∈ g, (⟨b.row + 1, b.col, b.color⟩ : Bubble) ∈ descendGrid bpr false g newColors) ∧
    (∀ c : Nat, c < bpr.toNat →
      (⟨0, (c : Int), newColors c⟩ : Bubble) ∈ descendGrid bpr false g newColors) ∧
    (∀ b ∈ descendGrid bpr false g newColors, b.row = 0 →
      ∃ c : Nat, c < bpr.toNat ∧ b = ⟨0, (c : Int), newColors c⟩) := by
  simp only [descendGrid, Bool.false_eq_true, if_false]
  refine ⟨?_, ?_, ?_⟩
  · intro b hb
    exact List.mem_append_left _ (List.mem_map.mpr ⟨b, hb, rfl⟩)
  · intro c hc
    exact List.mem_append_right _
      (List.mem_map.mpr ⟨c, List.mem_range.mpr hc, rfl⟩)
  · intro b hb hb0
    rcases List.mem_append.mp hb with hb | hb
    · obtain ⟨x, hx, rfl⟩ := List.mem_map.mp hb
      have := hrows x hx
      simp only at hb0
      omega
    · obtain ⟨c, hc, rfl⟩ := List.mem_map.mp hb
      exact ⟨c, List.mem_range.mp hc, rfl⟩

/-- Witness for C5: one bubble at (0,0) on a 2-column grid, fresh color 7. -/
theorem descendGrid_shift_and_refill_witness :
    (∀ b ∈ [(⟨0,0,3⟩ : Bubble)],
      (⟨b.row + 1, b.col, b.color⟩ : Bubble) ∈ descendGrid 2 false [⟨0,0,3⟩] (fun _ => 7)) ∧
    (∀ c : Nat, c < (2 : Int).toNat →
      (⟨0, (c : Int), 7⟩ : Bubble) ∈ descendGrid 2 false [⟨0,0,3⟩] (fun _ => 7)) ∧
    (∀ b ∈ descendGrid 2 false [⟨0,0,3⟩] (fun _ => 7), b.row = 0 →
      ∃ c : Nat, c < (2 : Int).toNat ∧ b = ⟨0, (c : Int), 7⟩) :=
  descendGrid_shift_and_refill 2 [⟨0,0,3⟩] (fun _ => 7) (by decide)

/-! ### C8: the pop cascade versus the deferred float check -/

/-- C8 (refuting evaluation): `popBubbles` schedules the `i`-th removal
of an `n`-bubble component at `i * 30` ms while `checkAndPopMatches`
schedules the float check at a fixed 100 ms; every removal of a
component of size 4 fires first, but a component of size 5 has its last
removal at 120 ms — after the float check, which therefore observes a
grid still holding popped bubbles. -/
theorem popDelays_outlast_floatCheck :
    (∀ d ∈ popDelays 4, d < FLOAT_CHECK_DELAY) ∧
    (120 ∈ popDelays 5 ∧ ¬ (120 < FLOAT_CHECK_DELAY)) := by decide

/-! ### C6 and C7: preview stepping versus flight stepping -/

/-- One flight frame at `delta = 1/80` s (per-frame displacement
`BUBBLE_SPEED / 80 = 10` px, the preview's step size) is exactly one
preview step: same wall reflection, same ceiling clamp, same contact
point. -/
lemma updateShootingBubble_matches_previewStep (area : GameArea)
    (centers : List (ℚ × ℚ)) (s : TrajState) :
    updateShootingBubble area centers (1/80) (toFlightState s) =
      match previewStep area centers s with
      | .ceiling x y => .stuck x y
      | .hit x y => .stuck x y
      | .flying s' => .flying (toFlightState s') := by
  have hx : s.x + s.dx * BUBBLE_SPEED * (1/80) = s.x + s.dx * 10 := by
    unfold BUBBLE_SPEED; ring
  have hy : s.y + s.dy * BUBBLE_SPEED * (1/80) = s.y + s.dy * 10 := by
    unfold BUBBLE_SPEED; ring
  have habs : |s.dx * BUBBLE_SPEED| = |s.dx| * BUBBLE_SPEED := by
    rw [abs_mul, abs_of_pos (show (0:ℚ) < BUBBLE_SPEED by norm_num [BUBBLE_SPEED])]
  simp only [updateShootingBubble, previewStep, toFlightState, hx, hy, habs]
  by_cases c1 : s.x + s.dx * 10 - BUBBLE_RADIUS ≤ area.left
  · by_cases c3 : s.y + s.dy * 10 - BUBBLE_RADIUS ≤ area.top
    · simp [c1, c3]
    · cases hcol : checkGridCollision centers (area.left + BUBBLE_RADIUS) (s.y + s.dy * 10) <;>
        simp [c1, c3, hcol]
  · by_cases c2 : s.x + s.dx * 10 + BUBBLE_RADIUS ≥ area.right
    · by_cases c3 : s.y + s.dy * 10 - BUBBLE_RADIUS ≤ area.top
      · simp [c1, c2, c3]
      · cases hcol : checkGridCollision centers (area.right - BUBBLE_RADIUS) (s.y + s.dy * 10) <;>
          simp [c1, c2, c3, hcol]
    · by_cases c3 : s.y + s.dy * 10 - BUBBLE_RADIUS ≤ area.top
      · simp [c1, c2, c3]
      · cases hcol : checkGridCollision centers (s.x + s.dx * 10) (s.y + s.dy * 10) <;>
          simp [c1, c2, c3, hcol]

lemma flightRun_matches_drawTrajectoryRun (area : GameArea) (centers : List (ℚ × ℚ)) :
    ∀ (fuel : Nat) (s : TrajState) (x y : ℚ),
      (drawTrajectoryRun area centers fuel s = .ceiling x y ∨
       drawTrajectoryRun area centers fuel s = .hit x y) →
      flightRun area centers (1/80) fuel (toFlightState s) = some (x, y) := by
  intro fuel
  induction fuel with
  | zero =>
    intro s x y h
    rcases h with h | h <;> simp [drawTrajectoryRun] at h
  | succ fuel ih =>
    intro s x y h
    by_cases hb : 3 < s.bounces
    · rcases h with h | h <;> simp [drawTrajectoryRun, hb] at h
    · have hstep := updateShootingBubble_matches_previewStep area centers s
      simp only [drawTrajectoryRun, if_neg hb] at h
      simp only [flightRun]
      cases hout : previewStep area centers s with
      | ceiling cx cy =>
        rw [hout] at h hstep
        rw [hstep]
        rcases h with h | h <;> cases h <;> rfl
      | hit cx cy =>
        rw [hout] at h hstep
        rw [hstep]
        rcases h with h | h <;> cases h <;> rfl
      | flying s' =>
        rw [hout] at h hstep
        rw [hstep]
        exact ih s' x y h

/-- C6 (refuting evaluation): same launch angle (90°, straight up), same
grid contents (one settled bubble centered at (200, 100)), yet the
preview's fixed 10-px steps first enter the 36-px contact range at
y = 130 while the flight at 60 fps (frame displacement 800/60 px) first
enters it at y = 400/3 ≈ 133.3: the two stopping points differ with no
wall bounce involved, because the shot moves by `velocity * delta` per
frame, not by the preview's fixed step. -/
theorem trajectory_preview_flight_differ :
    drawTrajectory ⟨0, 400, 0⟩ [(200, 100)] 0 (-1) 200 600 = .hit 200 130 ∧
    flightRun ⟨0, 400, 0⟩ [(200, 100)] (1/60) 200 (launchFlight 0 (-1) 200 600) =
      some (200, 400/3) ∧
    ((200 : ℚ), (130 : ℚ)) ≠ (200, 400/3) := by decide

/-- C6 amended: the per-step transition of the preview and of the shot
resolution agree (`updateShootingBubble_matches_previewStep`) once the
flight's per-frame displacement equals the preview's 10-px step (frame
time 1/80 s at speed 800), and under that equality, whenever the
200-step, 3-bounce-capped preview ends at the ceiling or at grid
contact, the shot resolution from the same launch stops at exactly the
same point. -/
theorem trajectory_preview_flight_agree (area : GameArea) (centers : List (ℚ × ℚ))
    (dx dy startX startY x y : ℚ)
    (h : drawTrajectory area centers dx dy startX startY = .ceiling x y ∨
         drawTrajectory area centers dx dy startX startY = .hit x y) :
    flightRun area centers (1/80) 200 (launchFlight dx dy startX startY) = some (x, y) :=
  flightRun_matches_drawTrajectoryRun area centers 200 ⟨startX, startY, dx, dy, 0⟩ x y h

/-- Witness for the amended C6: straight up over an empty grid, both
simulations stop clamped at the ceiling point (200, 20). -/
theorem trajectory_preview_flight_agree_witness :
    flightRun ⟨0, 400, 0⟩ [] (1/80) 200 (launchFlight 0 (-1) 200 600) = some (200, 20) :=
  trajectory_preview_flight_agree ⟨0, 400, 0⟩ [] 0 (-1) 200 600 200 20 (Or.inl (by decide))

/-- C7 (refuting evaluation): a launch direction on the unit circle
with positive but small vertical component (sin = 40/401, an angle
strictly inside (0°, 180°)) leaves the shot resolution still in flight
after 200 frames — the preview's configured `maxSteps` ceiling — even
at the preview's own per-frame displacement; the resolution loop has no
configured step ceiling. -/
theorem flightRun_exceeds_configured_ceiling :
    ((399 : ℚ)/401)^2 + ((-(40 : ℚ))/401)^2 = 1 ∧ (-(40 : ℚ))/401 < 0 ∧
    flightRun ⟨0, 400, 0⟩ [] (1/80) 200
      (launchFlight (399/401) (-(40)/401) 200 600) = none := by decide

lemma updateShootingBubble_flying (area : GameArea) (centers : List (ℚ × ℚ))
    (delta : ℚ) (s s' : FlightState)
    (h : updateShootingBubble area centers delta s = .flying s') :
    s'.y = s.y + s.vy * delta ∧ s'.vy = s.vy ∧
      area.top + BUBBLE_RADIUS < s'.y := by
  simp only [updateShootingBubble] at h
  split_ifs at h with h1 h2 h3 h4 h5 h6
  all_goals first
    | (obtain rfl := FlightOutcome.flying.inj h
       exact ⟨rfl, rfl, show area.top + BUBBLE_RADIUS < s.y + s.vy * delta by linarith⟩)
    | (cases h)

lemma flightRun_terminates_aux (area : GameArea) (centers : List (ℚ × ℚ))
    (delta : ℚ) :
    ∀ (fuel : Nat) (s : FlightState), s.vy < 0 →
      area.top + BUBBLE_RADIUS < s.y →
      s.y + s.vy * delta * fuel ≤ area.top + BUBBLE_RADIUS →
      (flightRun area centers delta fuel s).isSome = true := by
  intro fuel
  induction fuel with
  | zero =>
    intro s hvy hceil hfuel
    exfalso
    push_cast at hfuel
    simp only [mul_zero] at hfuel
    linarith
  | succ fuel ih =>
    intro s hvy hceil hfuel
    simp only [flightRun]
    cases hout : updateShootingBubble area centers delta s with
    | stuck sx sy => simp
    | flying s' =>
      obtain ⟨hy, hvy', hceil'⟩ := updateShootingBubble_flying area centers delta s s' hout
      apply ih s' (by rw [hvy']; exact hvy) hceil'
      rw [hy, hvy']
      push_cast at hfuel ⊢
      nlinarith [hfuel]

/-- C7 amended: the preview loop is hard-capped at `maxSteps = 200` by
construction, but the shot resolution carries no configured step
ceiling. It does always terminate for every launch angle in (0°, 180°)
(vertical direction component `dy < 0`): once enough frames have
elapsed for the accumulated vertical travel to span the distance to the
ceiling, the bubble has stuck — at the ceiling or on an earlier
contact. The required frame count depends on the angle, the frame time
and the starting height, not on a configured constant. -/
theorem trajectory_termination (area : GameArea) (centers : List (ℚ × ℚ))
    (delta dx dy startX startY : ℚ) (fuel : Nat)
    (hdy : dy < 0)
    (hstart : area.top + BUBBLE_RADIUS < startY)
    (hfuel : startY + dy * BUBBLE_SPEED * delta * fuel ≤ area.top + BUBBLE_RADIUS) :
    (flightRun area centers delta fuel (launchFlight dx dy startX startY)).isSome = true := by
  apply flightRun_terminates_aux area centers delta fuel
  · show dy * BUBBLE_SPEED < 0
    exact mul_neg_of_neg_of_pos hdy (by norm_num [BUBBLE_SPEED])
  · exact hstart
  · show startY + dy * BUBBLE_SPEED * delta * fuel ≤ area.top + BUBBLE_RADIUS
    exact hfuel

/-- Witness for the amended C7: straight up at 1/80 s frames from
y = 600, 58 frames reach the ceiling. -/
theorem trajectory_termination_witness :
    (flightRun ⟨0, 400, 0⟩ [] (1/80) 58 (launchFlight 0 (-1) 200 600)).isSome = true :=
  trajectory_termination ⟨0, 400, 0⟩ [] (1/80) 0 (-1) 200 600 58 (by norm_num)
    (by norm_num [BUBBLE_RADIUS]) (by norm_num [BUBBLE_RADIUS, BUBBLE_SPEED])

end BubbleShooter
